import Mathlib

/-!
Shallow embedding of the data pipeline of app.py (Dashboard-CDMX).

The source is a single pandas/Dash script.  We embed the data-level pipeline:
column renaming and validation, location cleaning, topic sentinel filtering,
per-location sentiment aggregation, top/bottom selection, topic treemap
summarisation, review-column detection and the word-cloud text step.
Chart construction and page layout are presentation glue and are not modelled.

Modelling conventions:
  - a table row is a structure of the relevant cell values; a missing cell is
    an Option that is none (pandas NaN);
  - pandas astype(str) renders a missing value as the string nan, which we
    model with Option.getD applied with the string nan;
  - counts are Nat via List.countP, ratios are exact rationals (the source
    uses binary floats; every property proved here is insensitive to the
    sort order of ties, which is the only place rounding could matter, and
    the source sort is unstable anyway);
  - pandas groupby key order and sort_values tie order are not semantically
    relied on by any claim, so group keys are collected with List.dedup and
    sorting is an insertion sort with the same comparison keys.
-/

/-- Characters considered whitespace by the strip operations. -/
def isWS (c : Char) : Bool := c.isWhitespace

/-- Strip whitespace from both ends of a character list (pandas str.strip). -/
def trimChars (l : List Char) : List Char :=
  ((l.dropWhile isWS).reverse.dropWhile isWS).reverse

/-- String version of trimChars; models str.strip on a cell value. -/
def trimS (s : String) : String := String.mk (trimChars s.data)

/-- Lower-case a string character by character (str.lower in the source). -/
def lowerS (s : String) : String := String.mk (s.data.map Char.toLower)

/-- Join a list of strings with single spaces, as join with a space does. -/
def joinSpaceData : List String → List Char
  | [] => []
  | [x] => x.data
  | x :: y :: xs => x.data ++ ' ' :: joinSpaceData (y :: xs)

/-- String join with spaces. -/
def joinSpace (l : List String) : String := String.mk (joinSpaceData l)

/-- Replace underscores by spaces, one character at a time. -/
def underscoreToSpace (c : Char) : Char := if c = '_' then ' ' else c

/-- Location cleaning from app.py lines 125-131: drop the literal prefix
pattern given by the regex anchored at the start, replace underscores by
spaces, and strip whitespace. -/
def cleanLugar (s : String) : String :=
  let l := s.data
  let pre := "reseñas_".data
  let l1 := if pre.isPrefixOf l then l.drop pre.length else l
  String.mk (trimChars (l1.map underscoreToSpace))

/-- Sentinel topic values dropped by app.py line 136. -/
def sentinelTopics : List String := ["-1", "-1.0", "", "None", "nan"]

/-- A raw input row: the two mandatory cells and the optional topic cell.
A topic of none models a missing value in the topic column. -/
structure RawRow where
  lugar : String
  sent_label : String
  topic : Option String
deriving DecidableEq, Repr

/-- A normalized row: cleaned location, sentiment label, and the trimmed
topic string (none when the input table has no topic column at all). -/
structure Row where
  lugar : String
  sent_label : String
  topic : Option String
deriving DecidableEq, Repr

/-- astype(str) on a topic cell: a missing value prints as nan. -/
def topicCell (o : Option String) : String := o.getD "nan"

/-- Per-row normalization when a topic column is present (app.py lines
125-135): clean the location and trim the stringified topic. -/
def rawToRow (r : RawRow) : Row :=
  { lugar := cleanLugar r.lugar, sent_label := r.sent_label,
    topic := some (trimS (topicCell r.topic)) }

/-- The row filter of app.py line 136: keep the rows whose topic is not a
sentinel. -/
def rowKeep (r : Row) : Bool := !(sentinelTopics.contains (r.topic.getD "nan"))

/-- A raw row whose stringified, trimmed topic is not a sentinel. -/
def nonSentinelRaw (r : RawRow) : Bool :=
  !(sentinelTopics.contains (trimS (topicCell r.topic)))

/-- Normalization of app.py lines 125-138: clean the location, and if the
table has a topic column coerce each topic to string, trim it, and drop the
rows whose trimmed topic is a sentinel; if there is no topic column the
topic of every row becomes the missing marker. -/
def normalizeRows (hasTopic : Bool) (rows : List RawRow) : List Row :=
  if hasTopic then
    (rows.map rawToRow).filter rowKeep
  else
    rows.map fun r =>
      { lugar := cleanLugar r.lugar, sent_label := r.sent_label, topic := none }

/-- One per-location aggregate row of the agg frame (app.py lines 150-159). -/
structure Agg where
  lugar : String
  mentions : Nat
  pos : Nat
  neg : Nat
  neu : Nat
deriving DecidableEq, Repr

/-- The distinct normalized locations (the groupby keys). -/
def uniqueLugares (rows : List Row) : List String :=
  (rows.map (fun r => r.lugar)).dedup

/-- The aggregate of one groupby group: mention count and the three exact
label sub-counts, as in app.py lines 152-157. -/
def aggFor (rows : List Row) (l : String) : Agg :=
  let g := rows.filter (fun r => decide (r.lugar = l))
  { lugar := l,
    mentions := g.length,
    pos := g.countP (fun r => decide (r.sent_label = "POS")),
    neg := g.countP (fun r => decide (r.sent_label = "NEG")),
    neu := g.countP (fun r => decide (r.sent_label = "NEU")) }

/-- The aggregate table: one row per distinct location. -/
def agg (rows : List Row) : List Agg := (uniqueLugares rows).map (aggFor rows)

/-- pos_ratio of app.py line 160, as an exact rational.  Stated with mkRat
so that concrete values reduce; posRatio_eq_div below shows it is the
quotient pos / mentions of the source. -/
def posRatio (a : Agg) : ℚ := mkRat a.pos a.mentions

/-- posRatio is the quotient of the positive count by the mention count. -/
theorem posRatio_eq_div (a : Agg) : posRatio a = (a.pos : ℚ) / (a.mentions : ℚ) := by
  rw [posRatio, Rat.mkRat_eq_divInt, Rat.divInt_eq_div]
  push_cast
  rfl

/-- Insertion of one element into a list sorted by a boolean comparison. -/
def insertSorted (le : α → α → Bool) (a : α) : List α → List α
  | [] => [a]
  | b :: l => if le a b then a :: b :: l else b :: insertSorted le a l

/-- Insertion sort by a boolean comparison.  The source uses an unstable
quicksort; every property proved here depends only on the sorted list being
a permutation of the input. -/
def sortByLe (le : α → α → Bool) (l : List α) : List α :=
  l.foldr (insertSorted le) []

/-- Focus-set size constant N of app.py line 21. -/
def N : Nat := 12

/-- Minimum topic mentions threshold of app.py line 22. -/
def MIN_TOPIC_MENTIONS : Nat := 40

/-- Comparison key of app.py line 161: pos_ratio descending, then mentions
descending. -/
def aggDescLe (a b : Agg) : Bool :=
  decide (posRatio b < posRatio a) ||
    (decide (posRatio a = posRatio b) && decide (b.mentions ≤ a.mentions))

/-- Comparison key of app.py line 166: pos_ratio ascending. -/
def ratioAscLe (a b : Agg) : Bool := decide (posRatio a ≤ posRatio b)

/-- The aggregate table sorted as on app.py line 161. -/
def aggSorted (rows : List Row) : List Agg := sortByLe aggDescLe (agg rows)

/-- top of app.py line 164. -/
def top (rows : List Row) : List Agg := (aggSorted rows).take N

/-- resto of app.py line 165: the sorted aggregates whose location is not
among the top locations. -/
def resto (rows : List Row) : List Agg :=
  (aggSorted rows).filter
    (fun a => !(decide (a.lugar ∈ (top rows).map (fun t => t.lugar))))

/-- bottom of app.py line 166. -/
def bottom (rows : List Row) : List Agg :=
  (sortByLe ratioAscLe (resto rows)).take N

/-- focus of app.py line 167: top then bottom. -/
def focus (rows : List Row) : List Agg := top rows ++ bottom rows

/-- The static topic description mapping of app.py lines 29-73. -/
def topic_descriptions : List (String × String) := [
  ("0", "El arte, la historia y la cultura mexicana: museos y murales (Diego Rivera)."),
  ("1", "Comprar boletos en línea para atracciones (Torre Latinoamericana, Anahuacalli...)."),
  ("2", "Mercados vibrantes con artesanías a precios accesibles."),
  ("3", "Palacio de Bellas Artes: acústica, conciertos y Ballet Folklórico."),
  ("4", "CDMX como destino obligatorio: Antropología, Castillo de Chapultepec, MUNAL."),
  ("5", "Acuario Inbursa: experiencia interactiva, pingüinos y tiburones."),
  ("6", "Hoteles históricos: servicio, comida y vistas (base para explorar)."),
  ("7", "Basílica de Guadalupe: peregrinación, arquitectura e historia."),
  ("8", "Cineteca Nacional: cine de arte asequible, proyecciones de calidad."),
  ("9", "Murales de Diego Rivera en el Palacio Nacional: gratuitos y emblemáticos."),
  ("10", "Papalote Museo del Niño: interactivo para niños y adultos."),
  ("11", "Castillo de Chapultepec: edificio histórico con vistas impresionantes."),
  ("12", "Ciudad Universitaria (UNAM): patrimonio, murales y cultura."),
  ("13", "Zoológico de Chapultepec: entrada gratuita, variedad de animales."),
  ("14", "Bosque de Chapultepec: parque grande ideal para picnic y paseos."),
  ("15", "Mercados de artesanías: comparar precios y caminar para encontrar tesoros."),
  ("16", "Torre Latinoamericana: vistas panorámicas imperdibles."),
  ("17", "Museo Memoria y Tolerancia: exposición fuerte para concientizar."),
  ("18", "Bazar del Sábado en San Ángel: artesanías y ambiente bohemio."),
  ("19", "Palacio de Correos: edificio histórico con interior marmóreo."),
  ("20", "Comida en museos: buffets y desayunos recomendados."),
  ("21", "Paseo Dominical por Reforma: cierre vial para peatones y ciclistas."),
  ("22", "Museos tipo Papalote: actividades interactivas familiares."),
  ("23", "Six Flags México: parque de diversiones con pase rápido disponible."),
  ("24", "Críticas al servicio en Six Flags: personal y plataformas de pago."),
  ("25", "Museo de Cera: figuras para fotos y entretenimiento."),
  ("26", "Lucha libre en Arena México: show familiar y ambiente animado."),
  ("27", "Problemas de organización y comida en Six Flags."),
  ("28", "Tarjeta del Metrobús: forma económica de moverse por la ciudad."),
  ("29", "Coyoacán: barrio encantador, churros y ambiente seguro."),
  ("30", "Atracciones de Six Flags con largas filas en temporada alta."),
  ("31", "Six Flags: variedad de juegos y montañas rusas familiares."),
  ("32", "Críticas a la comida de los buffets (mala y cara)."),
  ("33", "Festival del Terror: aglomeraciones y largas filas."),
  ("34", "Zócalo: plaza principal con eventos y edificios históricos."),
  ("35", "Templo Mayor: vestigio azteca fascinante en el centro."),
  ("36", "Museo Memoria y Tolerancia: reflexión sobre atrocidades humanas."),
  ("37", "Mercados de artesanías: paciencia y habilidad para negociar."),
  ("38", "World Press Photo: exhibición temporal fotoperiodística."),
  ("39", "Polanco: zona exclusiva con restaurantes, pero tráfico pesado."),
  ("40", "Mural histórico de Diego Rivera salvado tras 1985: traducción cultural."),
  ("41", "Problemas de limpieza y control animal en parques y colonias.")]

/-- short_label of app.py lines 78-81: when the looked-up description is
nonempty the function returns the label text, otherwise control falls off
the end of the Python function and the result is None, modelled as none. -/
def short_label (topic_id : String) : Option String :=
  let desc := (topic_descriptions.lookup topic_id).getD ""
  if desc = "" then none else some ("Tópico " ++ topic_id)

/-- One output row of the treemap frame after map_topic_row. -/
structure TopicRow where
  topic_id : String
  label : Option String
  description : String
  mentions : Nat
deriving DecidableEq, Repr

/-- map_topic_row of app.py lines 177-181: trim the topic id, look up the
description with the neg_ fallback and an empty default, and build the label
with short_label. -/
def map_topic_row (t : String) (m : Nat) : TopicRow :=
  let tid := trimS t
  { topic_id := tid,
    label := short_label tid,
    description :=
      match topic_descriptions.lookup tid with
      | some d => d
      | none => (topic_descriptions.lookup ("neg_" ++ tid)).getD "",
    mentions := m }

/-- The treemap computation of app.py lines 172-185: when some topic value
is present, restrict to rows whose location is in the focus set, count rows
per distinct topic, keep the topics meeting the threshold and enrich them
with labels and descriptions; otherwise the result is the empty frame. -/
def treemapResult (rows : List Row) : List TopicRow :=
  if rows.any (fun r => r.topic.isSome) then
    let fl := (focus rows).map (fun a => a.lugar)
    let tmp := rows.filter (fun r => decide (r.lugar ∈ fl))
    let keys := (tmp.filterMap (fun r => r.topic)).dedup
    let counted := keys.map (fun t => (t, tmp.countP (fun r => decide (r.topic = some t))))
    (counted.filter (fun p => decide (MIN_TOPIC_MENTIONS ≤ p.2))).map
      (fun p => map_topic_row p.1 p.2)
  else []

/-- A column of the raw table: its name, whether pandas would consider it a
text-like column (object or string dtype), and its cell values, with none
for a missing value. -/
structure Col where
  name : String
  textLike : Bool
  values : List (Option String)
deriving DecidableEq, Repr

/-- A raw table at schema level: its row count and its columns in order. -/
structure DFrame where
  nRows : Nat
  cols : List Col
deriving DecidableEq, Repr

/-- Canonical review column names of app.py line 86. -/
def reviewCandidates : List String :=
  ["review", "review_text", "review_lematizada", "review_lemmatized", "texto", "comentario"]

/-- The sample of app.py line 94: the first 200 non-missing values. -/
def colSample (c : Col) : List String := (c.values.filterMap id).take 200

/-- Average string length of a sample, 0 when the sample is empty; stated
with mkRat so that concrete values reduce (avgLen_eq_div shows the quotient
form of the source). -/
def avgLen (l : List String) : ℚ :=
  if l.isEmpty then 0
  else mkRat ((((l.map (fun s => s.length)).sum : Nat)) : Int) l.length

/-- avgLen is the mean length of the sampled strings. -/
theorem avgLen_eq_div (l : List String) :
    avgLen l =
      if l.isEmpty then 0
      else ((((l.map (fun s => s.length)).sum : Nat)) : ℚ) / (l.length : ℚ) := by
  cases h : l.isEmpty with
  | true => simp [avgLen, h]
  | false =>
    rw [avgLen, if_neg (by simp [h]), if_neg (by simp [h]),
      Rat.mkRat_eq_divInt, Rat.natCast_div_eq_divInt]

/-- Multiplication of two exact rationals, stated through numerators and
denominators so that concrete values reduce; ratMul_eq shows it is ordinary
rational multiplication. -/
def ratMul (a b : ℚ) : ℚ := mkRat (a.num * b.num) (a.den * b.den)

/-- ratMul is multiplication on the rationals. -/
theorem ratMul_eq (a b : ℚ) : ratMul a b = a * b := (Rat.mul_eq_mkRat a b).symm

/-- The heuristic score of app.py line 96: average sampled string length
times the sampled fraction of the table rows. -/
def colScore (nRows : Nat) (c : Col) : ℚ :=
  ratMul (avgLen (colSample c)) (mkRat ((colSample c).length : Int) (max 1 nRows))

/-- colScore is the product written in the source. -/
theorem colScore_eq_mul (nRows : Nat) (c : Col) :
    colScore nRows c =
      avgLen (colSample c) * (((colSample c).length : ℚ) / (max 1 nRows : ℚ)) := by
  rw [colScore, ratMul_eq, Rat.mkRat_eq_divInt, Rat.divInt_eq_div]
  push_cast
  rfl

/-- One iteration of the fallback loop of app.py lines 93-99: keep the
column with the strictly larger score. -/
def bestStep (nRows : Nat) (acc : Option String × ℚ) (c : Col) : Option String × ℚ :=
  if acc.2 < colScore nRows c then (some c.name, colScore nRows c) else acc

/-- detect_review_column of app.py lines 84-100: first the case-insensitive
canonical match, else the fold of the strict best-score loop over the
text-like columns starting from no column and score 0. -/
def detect_review_column (df : DFrame) : Option String :=
  match df.cols.filter (fun c => reviewCandidates.contains (lowerS c.name)) with
  | c :: _ => some c.name
  | [] =>
    ((df.cols.filter (fun c => c.textLike)).foldl (bestStep df.nRows)
      ((none : Option String), (0 : ℚ))).1

/-- The rename map of app.py lines 110-118 applied to one column name:
known source names become canonical names, others are untouched. -/
def renameName (n : String) : String :=
  if n = "Lugar" then "lugar"
  else if n = "SentLabel" then "sent_label"
  else if n = "SentScore" then "sent_score"
  else if n = "Topic" then "topic"
  else if n = "Review" then "review_text"
  else if n = "review" then "review_text"
  else n

/-- Renaming of the full column list. -/
def renameColumns (names : List String) : List String := names.map renameName

/-- The validation of app.py lines 120-122: after renaming, the table must
contain the two mandatory canonical columns or a ValueError aborts startup. -/
def validateColumns (names : List String) : Except String (List String) :=
  let renamed := renameColumns names
  if "lugar" ∈ renamed ∧ "sent_label" ∈ renamed then Except.ok renamed
  else Except.error "El CSV debe contener al menos las columnas Lugar y SentLabel (o sus equivalentes)."

/-- The text-selection logic of make_wordcloud_base64 (app.py lines 190-195)
at data level: join the review texts; when the joined text is blank and some
topic value is present fall back to the joined topics; a still-blank text
yields no image (None), otherwise an image is generated from the text. -/
def make_wordcloud_text (texts : List String) (topicVals : List (Option String)) : Option String :=
  let text := joinSpace texts
  let text2 :=
    if (trimChars text.data).isEmpty && topicVals.any (fun o => o.isSome) then
      joinSpace (topicVals.filterMap id)
    else text
  if (trimChars text2.data).isEmpty then none else some text2

/-- app.py line 201: the word-cloud source is built from the column literally
named Review_Lematizada of the table; a missing column is a KeyError. -/
def wordcloud_src (df : DFrame) (topicVals : List (Option String)) :
    Except String (Option String) :=
  match df.cols.find? (fun c => c.name = "Review_Lematizada") with
  | none => Except.error "KeyError: Review_Lematizada"
  | some c => Except.ok (make_wordcloud_text (c.values.map (fun v => v.getD "")) topicVals)

/-- A sentiment label recognized by the three exact comparisons of the
aggregation (app.py lines 154-156). -/
def recognizedLabel (s : String) : Prop := s = "POS" ∨ s = "NEG" ∨ s = "NEU"

instance (s : String) : Decidable (recognizedLabel s) := by
  unfold recognizedLabel
  infer_instance

/-- Inserting an element produces a permutation of consing it. -/
theorem insertSorted_perm (le : α → α → Bool) (a : α) (l : List α) :
    List.Perm (insertSorted le a l) (a :: l) := by
  induction l with
  | nil => exact List.Perm.refl _
  | cons b t ih =>
    rw [insertSorted]
    by_cases h : le a b
    · rw [if_pos h]
    · rw [if_neg h]
      exact (ih.cons b).trans (List.Perm.swap a b t)

/-- The insertion sort produces a permutation of its input. -/
theorem sortByLe_perm (le : α → α → Bool) (l : List α) : List.Perm (sortByLe le l) l := by
  induction l with
  | nil => exact List.Perm.refl _
  | cons a t ih =>
    exact (insertSorted_perm le a (sortByLe le t)).trans (ih.cons a)

/-- The locations of the aggregate table are exactly the distinct
normalized locations. -/
theorem agg_map_lugar (rows : List Row) :
    (agg rows).map (fun a => a.lugar) = uniqueLugares rows := by
  rw [agg, List.map_map]
  exact List.map_id (uniqueLugares rows)

/-- The locations of the aggregate table contain no duplicate. -/
theorem agg_lugar_nodup (rows : List Row) :
    ((agg rows).map (fun a => a.lugar)).Nodup := by
  rw [agg_map_lugar]
  exact List.nodup_dedup _

/-- The sorted aggregate table is a permutation of the aggregate table. -/
theorem aggSorted_perm (rows : List Row) : List.Perm (aggSorted rows) (agg rows) :=
  sortByLe_perm aggDescLe (agg rows)

/-- The locations of the sorted aggregate table contain no duplicate. -/
theorem aggSorted_lugar_nodup (rows : List Row) :
    ((aggSorted rows).map (fun a => a.lugar)).Nodup :=
  (((aggSorted_perm rows).map (fun a => a.lugar)).nodup_iff).mpr (agg_lugar_nodup rows)

/-- resto is exactly the sorted aggregate table with its first N rows
removed: the filter by location identity removes the top block and nothing
else, because locations are unique per aggregate row. -/
theorem resto_eq_drop (rows : List Row) : resto rows = (aggSorted rows).drop N := by
  have hnd := aggSorted_lugar_nodup rows
  have hsplit := List.take_append_drop N (aggSorted rows)
  have hmapsplit :
      (aggSorted rows).map (fun a => a.lugar) =
        ((aggSorted rows).take N).map (fun a => a.lugar) ++
          ((aggSorted rows).drop N).map (fun a => a.lugar) := by
    rw [← List.map_append, hsplit]
  rw [hmapsplit, List.nodup_append] at hnd
  obtain ⟨-, -, hdisj⟩ := hnd
  rw [resto, top]
  have h1 : ((aggSorted rows).take N).filter
      (fun a => !(decide (a.lugar ∈ ((aggSorted rows).take N).map (fun t => t.lugar)))) = [] := by
    refine List.filter_eq_nil_iff.mpr ?_
    intro a ha
    have hm : a.lugar ∈ ((aggSorted rows).take N).map (fun t => t.lugar) :=
      List.mem_map_of_mem _ ha
    rw [List.map_take] at hm
    simp [hm]
  have h2 : ((aggSorted rows).drop N).filter
      (fun a => !(decide (a.lugar ∈ ((aggSorted rows).take N).map (fun t => t.lugar)))) =
        (aggSorted rows).drop N := by
    refine List.filter_eq_self.mpr ?_
    intro a ha
    have hmem : a.lugar ∈ ((aggSorted rows).drop N).map (fun t => t.lugar) :=
      List.mem_map_of_mem _ ha
    have hnot : a.lugar ∉ ((aggSorted rows).take N).map (fun t => t.lugar) :=
      fun hc => hdisj hc hmem
    rw [List.map_take] at hnot
    simp [hnot]
  have hfa : (aggSorted rows).filter
      (fun a => !(decide (a.lugar ∈ ((aggSorted rows).take N).map (fun t => t.lugar)))) =
      ((aggSorted rows).take N).filter
        (fun a => !(decide (a.lugar ∈ ((aggSorted rows).take N).map (fun t => t.lugar)))) ++
      ((aggSorted rows).drop N).filter
        (fun a => !(decide (a.lugar ∈ ((aggSorted rows).take N).map (fun t => t.lugar)))) := by
    rw [← List.filter_append, hsplit]
  rw [hfa, h1, h2, List.nil_append]

/-- Any location of the bottom set is outside the top set: bottom is drawn
from resto, which excludes every top location by construction. -/
theorem sel_disjoint (rows : List Row) :
    ∀ l ∈ (top rows).map (fun a => a.lugar), l ∉ (bottom rows).map (fun a => a.lugar) := by
  intro l hl hbl
  obtain ⟨b, hb, rfl⟩ := List.mem_map.mp hbl
  have hb2 : b ∈ sortByLe ratioAscLe (resto rows) := List.mem_of_mem_take hb
  have hb3 : b ∈ resto rows := (sortByLe_perm ratioAscLe (resto rows)).mem_iff.mp hb2
  have hp := (List.mem_filter.mp hb3).2
  simp only [Bool.not_eq_eq_eq_not, Bool.not_true, decide_eq_false_iff_not] at hp
  exact hp hl

/-- The size of the bottom set is N capped by the number of aggregate rows
left after removing the top block. -/
theorem bottom_length (rows : List Row) :
    (bottom rows).length = min N ((uniqueLugares rows).length - N) := by
  rw [bottom, List.length_take]
  have h1 : (sortByLe ratioAscLe (resto rows)).length = (resto rows).length :=
    (sortByLe_perm ratioAscLe (resto rows)).length_eq
  have h2 : (aggSorted rows).length = (uniqueLugares rows).length := by
    rw [(aggSorted_perm rows).length_eq, agg, List.length_map]
  rw [h1, resto_eq_drop, List.length_drop, h2]

/-- The three label counts are mutually exclusive, so their sum is at most
the group size, with equality exactly when every label is recognized. -/
theorem count3_le (g : List Row) :
    g.countP (fun r => decide (r.sent_label = "POS")) +
        g.countP (fun r => decide (r.sent_label = "NEG")) +
        g.countP (fun r => decide (r.sent_label = "NEU")) ≤ g.length ∧
      (g.countP (fun r => decide (r.sent_label = "POS")) +
          g.countP (fun r => decide (r.sent_label = "NEG")) +
          g.countP (fun r => decide (r.sent_label = "NEU")) = g.length ↔
        ∀ r ∈ g, recognizedLabel r.sent_label) := by
  induction g with
  | nil => simp
  | cons r t ih =>
    obtain ⟨ih1, ih2⟩ := ih
    simp only [List.countP_cons, List.length_cons, List.forall_mem_cons]
    by_cases h1 : r.sent_label = "POS"
    · rw [if_pos (by rw [h1]; rfl : decide (r.sent_label = "POS") = true),
        if_neg (by rw [h1]; decide : ¬ decide (r.sent_label = "NEG") = true),
        if_neg (by rw [h1]; decide : ¬ decide (r.sent_label = "NEU") = true)]
      have hrec : recognizedLabel r.sent_label := Or.inl h1
      refine ⟨by omega, ?_⟩
      constructor
      · intro heq
        exact ⟨hrec, ih2.mp (by omega)⟩
      · rintro ⟨-, hall⟩
        have := ih2.mpr hall
        omega
    · by_cases h2 : r.sent_label = "NEG"
      · rw [if_neg (by simpa using h1 : ¬ decide (r.sent_label = "POS") = true),
          if_pos (by rw [h2]; rfl : decide (r.sent_label = "NEG") = true),
          if_neg (by rw [h2]; decide : ¬ decide (r.sent_label = "NEU") = true)]
        have hrec : recognizedLabel r.sent_label := Or.inr (Or.inl h2)
        refine ⟨by omega, ?_⟩
        constructor
        · intro heq
          exact ⟨hrec, ih2.mp (by omega)⟩
        · rintro ⟨-, hall⟩
          have := ih2.mpr hall
          omega
      · by_cases h3 : r.sent_label = "NEU"
        · rw [if_neg (by simpa using h1 : ¬ decide (r.sent_label = "POS") = true),
            if_neg (by simpa using h2 : ¬ decide (r.sent_label = "NEG") = true),
            if_pos (by rw [h3]; rfl : decide (r.sent_label = "NEU") = true)]
          have hrec : recognizedLabel r.sent_label := Or.inr (Or.inr h3)
          refine ⟨by omega, ?_⟩
          constructor
          · intro heq
            exact ⟨hrec, ih2.mp (by omega)⟩
          · rintro ⟨-, hall⟩
            have := ih2.mpr hall
            omega
        · rw [if_neg (by simpa using h1 : ¬ decide (r.sent_label = "POS") = true),
            if_neg (by simpa using h2 : ¬ decide (r.sent_label = "NEG") = true),
            if_neg (by simpa using h3 : ¬ decide (r.sent_label = "NEU") = true)]
          have hrec : ¬ recognizedLabel r.sent_label := by
            rintro (hc | hc | hc)
            · exact h1 hc
            · exact h2 hc
            · exact h3 hc
          refine ⟨by omega, ?_⟩
          constructor
          · intro heq
            omega
          · rintro ⟨hr, -⟩
            exact absurd hr hrec

/-- Characterization of the strict best-score fold: either no column beats
the accumulator and it is returned unchanged, or the result is the score and
name of a maximal column that strictly beats the accumulator. -/
theorem foldl_bestStep_spec (nR : Nat) (L : List Col) :
    ∀ acc : Option String × ℚ,
      (L.foldl (bestStep nR) acc = acc ∧ ∀ c ∈ L, colScore nR c ≤ acc.2) ∨
        (∃ c ∈ L, (L.foldl (bestStep nR) acc).1 = some c.name ∧
          (L.foldl (bestStep nR) acc).2 = colScore nR c ∧ acc.2 < colScore nR c ∧
          ∀ c2 ∈ L, colScore nR c2 ≤ colScore nR c) := by
  induction L with
  | nil =>
    intro acc
    left
    exact ⟨rfl, by simp⟩
  | cons c t ih =>
    intro acc
    rw [List.foldl_cons]
    by_cases h : acc.2 < colScore nR c
    · have hstep : bestStep nR acc c = (some c.name, colScore nR c) := by
        rw [bestStep, if_pos h]
      rw [hstep]
      rcases ih (some c.name, colScore nR c) with ⟨heq, hall⟩ | ⟨c2, hc2, hn, hs, hlt, hall⟩
      · right
        refine ⟨c, List.mem_cons_self c t, by rw [heq], by rw [heq], h, ?_⟩
        intro c2 hc2
        rcases List.mem_cons.mp hc2 with rfl | hm
        · exact le_refl _
        · exact hall c2 hm
      · right
        refine ⟨c2, List.mem_cons_of_mem c hc2, hn, hs, lt_trans h hlt, ?_⟩
        intro c3 hc3
        rcases List.mem_cons.mp hc3 with rfl | hm
        · exact le_of_lt hlt
        · exact hall c3 hm
    · have hstep : bestStep nR acc c = acc := by
        rw [bestStep, if_neg h]
      rw [hstep]
      rcases ih acc with ⟨heq, hall⟩ | ⟨c2, hc2, hn, hs, hlt, hall⟩
      · left
        refine ⟨heq, ?_⟩
        intro c2 hc2
        rcases List.mem_cons.mp hc2 with rfl | hm
        · exact le_of_not_lt h
        · exact hall c2 hm
      · right
        refine ⟨c2, List.mem_cons_of_mem c hc2, hn, hs, hlt, ?_⟩
        intro c3 hc3
        rcases List.mem_cons.mp hc3 with rfl | hm
        · exact le_trans (le_of_not_lt h) (le_of_lt hlt)
        · exact hall c3 hm

/-- A successful association-list lookup yields a member pair. -/
theorem lookup_mem {l : List (String × String)} {k v : String}
    (h : l.lookup k = some v) : (k, v) ∈ l := by
  induction l with
  | nil => simp [List.lookup] at h
  | cons p t ih =>
    obtain ⟨a, b⟩ := p
    rw [List.lookup_cons] at h
    cases hk : (k == a) with
    | true =>
      rw [hk] at h
      obtain rfl : b = v := by injection h
      have hka : k = a := eq_of_beq hk
      rw [hka]
      exact List.mem_cons_self _ _
    | false =>
      rw [hk] at h
      exact List.mem_cons_of_mem _ (ih h)

/-- Every description stored in the static mapping is nonempty. -/
theorem topic_descriptions_ne_empty {k d : String}
    (h : topic_descriptions.lookup k = some d) : d ≠ "" := by
  have hm := lookup_mem h
  have hall : ∀ p ∈ topic_descriptions, (fun q => decide (q.2 ≠ "")) p = true := by decide
  have := hall (k, d) hm
  simpa using this

/-- Filtering before mapping equals mapping before filtering when the
predicate factors through the map. -/
theorem filter_map_comm (f : α → β) (q : β → Bool) (l : List α) :
    (l.filter (fun a => q (f a))).map f = (l.map f).filter q := by
  induction l with
  | nil => rfl
  | cons a t ih =>
    by_cases h : q (f a) = true
    · rw [List.filter_cons, if_pos h, List.map_cons, List.map_cons, List.filter_cons, if_pos h, ih]
    · rw [List.filter_cons, if_neg h, List.map_cons, List.filter_cons, if_neg h, ih]

/-- C3: for every input table, the sum of the three sentiment sub-counts of
a location aggregate is at most its mention count, with equality exactly
when every sentiment label of that location is one of POS, NEG, NEU;
unrecognized labels count toward mentions but toward no bucket. -/
theorem c3_sum_bounds (rows : List Row) (a : Agg) (ha : a ∈ agg rows) :
    a.pos + a.neg + a.neu ≤ a.mentions ∧
      (a.pos + a.neg + a.neu = a.mentions ↔
        ∀ r ∈ rows, r.lugar = a.lugar → recognizedLabel r.sent_label) := by
  obtain ⟨l, hl, rfl⟩ := List.mem_map.mp ha
  have h := count3_le (rows.filter (fun r => decide (r.lugar = l)))
  refine ⟨h.1, ?_⟩
  have hiff : (∀ r ∈ rows.filter (fun r => decide (r.lugar = l)), recognizedLabel r.sent_label) ↔
      (∀ r ∈ rows, r.lugar = (aggFor rows l).lugar → recognizedLabel r.sent_label) := by
    constructor
    · intro hall r hr hlr
      exact hall r (List.mem_filter.mpr ⟨hr, by simpa using hlr⟩)
    · intro hall r hrf
      obtain ⟨hr, hp⟩ := List.mem_filter.mp hrf
      exact hall r hr (by simpa using hp)
  exact h.2.trans hiff

/-- Concrete table for the c3_sum_bounds witness: one location with one
recognized and one unrecognized label. -/
def exRows3 : List Row := [⟨"A", "POS", none⟩, ⟨"A", "OTHER", none⟩]

/-- The aggregate row of exRows3. -/
def exAgg3 : Agg := ⟨"A", 2, 1, 0, 0⟩

/-- Witness for c3_sum_bounds at a concrete table. -/
theorem c3_sum_bounds_witness :
    exAgg3 ∈ agg exRows3 ∧
      (exAgg3.pos + exAgg3.neg + exAgg3.neu ≤ exAgg3.mentions ∧
        (exAgg3.pos + exAgg3.neg + exAgg3.neu = exAgg3.mentions ↔
          ∀ r ∈ exRows3, r.lugar = exAgg3.lugar → recognizedLabel r.sent_label)) :=
  ⟨by decide, c3_sum_bounds exRows3 exAgg3 (by decide)⟩

/-- The three-row input of the worked example of the spec. -/
def exRows4 : List RawRow :=
  [⟨"reseñas_MuseoX", "POS", none⟩, ⟨"reseñas_MuseoX", "POS", none⟩,
    ⟨"reseñas_MuseoX", "NEG", none⟩]

/-- C4: on the worked three-row example the Normalizer yields the location
MuseoX and the Aggregator yields mentions 3, pos 2, neg 1, neu 0 with
positive ratio 2/3. -/
theorem c4_example :
    (normalizeRows false exRows4).map (fun r => r.lugar) = ["MuseoX", "MuseoX", "MuseoX"] ∧
      agg (normalizeRows false exRows4) = [⟨"MuseoX", 3, 2, 1, 0⟩] ∧
      posRatio ⟨"MuseoX", 3, 2, 1, 0⟩ = 2 / 3 :=
  ⟨by decide, by decide, by rw [posRatio_eq_div]; norm_num⟩

/-- C5: whenever the distinct-location count is at least 2 N, the top and
bottom sets share no location. -/
theorem c5_disjoint (rows : List Row) (h : 2 * N ≤ (uniqueLugares rows).length) :
    ∀ l ∈ (top rows).map (fun a => a.lugar), l ∉ (bottom rows).map (fun a => a.lugar) :=
  sel_disjoint rows

/-- Concrete table with 24 distinct locations for the c5_disjoint witness. -/
def exRows5 : List Row :=
  [⟨"L01", "POS", none⟩, ⟨"L02", "POS", none⟩, ⟨"L03", "POS", none⟩,
    ⟨"L04", "POS", none⟩, ⟨"L05", "POS", none⟩, ⟨"L06", "POS", none⟩,
    ⟨"L07", "POS", none⟩, ⟨"L08", "POS", none⟩, ⟨"L09", "POS", none⟩,
    ⟨"L10", "POS", none⟩, ⟨"L11", "POS", none⟩, ⟨"L12", "POS", none⟩,
    ⟨"L13", "POS", none⟩, ⟨"L14", "POS", none⟩, ⟨"L15", "POS", none⟩,
    ⟨"L16", "POS", none⟩, ⟨"L17", "POS", none⟩, ⟨"L18", "POS", none⟩,
    ⟨"L19", "POS", none⟩, ⟨"L20", "POS", none⟩, ⟨"L21", "POS", none⟩,
    ⟨"L22", "POS", none⟩, ⟨"L23", "POS", none⟩, ⟨"L24", "POS", none⟩]

/-- Witness for c5_disjoint at a table with 24 distinct locations. -/
theorem c5_disjoint_witness :
    2 * N ≤ (uniqueLugares exRows5).length ∧
      ∀ l ∈ (top exRows5).map (fun a => a.lugar), l ∉ (bottom exRows5).map (fun a => a.lugar) :=
  ⟨by decide, c5_disjoint exRows5 (by decide)⟩

/-- C10: unconditionally, the top and bottom sets share no location, and
the bottom set has exactly min N (k - min N k) rows for k distinct
locations. -/
theorem c10_bottom (rows : List Row) :
    (∀ l ∈ (top rows).map (fun a => a.lugar), l ∉ (bottom rows).map (fun a => a.lugar)) ∧
      (bottom rows).length =
        min N ((uniqueLugares rows).length - min N ((uniqueLugares rows).length)) := by
  refine ⟨sel_disjoint rows, ?_⟩
  rw [bottom_length]
  omega

/-- Concrete table with 3 distinct locations, fewer than 2 N. -/
def exRows10 : List Row := [⟨"A", "POS", none⟩, ⟨"B", "NEG", none⟩, ⟨"C", "NEU", none⟩]

/-- Witness for c10_bottom at a table with 3 distinct locations. -/
theorem c10_bottom_witness :
    (∀ l ∈ (top exRows10).map (fun a => a.lugar), l ∉ (bottom exRows10).map (fun a => a.lugar)) ∧
      (bottom exRows10).length =
        min N ((uniqueLugares exRows10).length - min N ((uniqueLugares exRows10).length)) :=
  c10_bottom exRows10

/-- C7: when every trimmed topic value of the table is the sentinel -1, the
Topic Summarizer yields the empty result, whatever the number of rows. -/
theorem c7_sentinel_only (rows : List RawRow)
    (h : ∀ r ∈ rows, trimS (topicCell r.topic) = "-1") :
    treemapResult (normalizeRows true rows) = [] := by
  have hnil : normalizeRows true rows = [] := by
    rw [normalizeRows, if_pos rfl]
    refine List.filter_eq_nil_iff.mpr ?_
    intro x hx
    obtain ⟨r, hr, rfl⟩ := List.mem_map.mp hx
    simp [rowKeep, rawToRow, h r hr, sentinelTopics]
  rw [hnil]
  rfl

/-- Concrete table whose topics all trim to the sentinel -1. -/
def exRows7 : List RawRow :=
  [⟨"reseñas_A", "POS", some "-1"⟩, ⟨"B", "NEG", some " -1 "⟩]

/-- Witness for c7_sentinel_only at a concrete all-sentinel table. -/
theorem c7_sentinel_only_witness :
    (∀ r ∈ exRows7, trimS (topicCell r.topic) = "-1") ∧
      treemapResult (normalizeRows true exRows7) = [] :=
  ⟨by decide, c7_sentinel_only exRows7 (by decide)⟩

/-- A name renames to lugar exactly when it is Lugar or already lugar. -/
theorem renameName_eq_lugar (n : String) :
    renameName n = "lugar" ↔ (n = "Lugar" ∨ n = "lugar") := by
  rw [renameName]
  split_ifs with h1 h2 h3 h4 h5 h6
  · subst h1; decide
  · subst h2; decide
  · subst h3; decide
  · subst h4; decide
  · subst h5; decide
  · subst h6; decide
  · constructor
    · intro hc
      exact Or.inr hc
    · rintro (hc | hc)
      · exact absurd hc h1
      · exact hc

/-- A name renames to sent_label exactly when it is SentLabel or already
sent_label. -/
theorem renameName_eq_sent_label (n : String) :
    renameName n = "sent_label" ↔ (n = "SentLabel" ∨ n = "sent_label") := by
  rw [renameName]
  split_ifs with h1 h2 h3 h4 h5 h6
  · subst h1; decide
  · subst h2; decide
  · subst h3; decide
  · subst h4; decide
  · subst h5; decide
  · subst h6; decide
  · constructor
    · intro hc
      exact Or.inr hc
    · rintro (hc | hc)
      · exact absurd hc h2
      · exact hc

/-- C8: the Normalizer aborts with a validation error exactly when, after
renaming the known source column names, the canonical location or sentiment
label column is absent; presence of each canonical column is equivalent to
the presence of its source or canonical spelling in the input. -/
theorem c8_validation (names : List String) :
    ((∃ e, validateColumns names = Except.error e) ↔
      ¬("lugar" ∈ renameColumns names ∧ "sent_label" ∈ renameColumns names)) ∧
      ("lugar" ∈ renameColumns names ↔ ("Lugar" ∈ names ∨ "lugar" ∈ names)) ∧
      ("sent_label" ∈ renameColumns names ↔ ("SentLabel" ∈ names ∨ "sent_label" ∈ names)) := by
  refine ⟨?_, ?_, ?_⟩
  · by_cases hv : "lugar" ∈ renameColumns names ∧ "sent_label" ∈ renameColumns names
    · simp [validateColumns, hv]
    · simp [validateColumns, hv]
  · rw [renameColumns, List.mem_map]
    constructor
    · rintro ⟨n, hn, he⟩
      rcases (renameName_eq_lugar n).mp he with rfl | rfl
      · exact Or.inl hn
      · exact Or.inr hn
    · rintro (hn | hn)
      · exact ⟨"Lugar", hn, by decide⟩
      · exact ⟨"lugar", hn, by decide⟩
  · rw [renameColumns, List.mem_map]
    constructor
    · rintro ⟨n, hn, he⟩
      rcases (renameName_eq_sent_label n).mp he with rfl | rfl
      · exact Or.inl hn
      · exact Or.inr hn
    · rintro (hn | hn)
      · exact ⟨"SentLabel", hn, by decide⟩
      · exact ⟨"sent_label", hn, by decide⟩

/-- Concrete two-row table: one sentinel-topic row and one regular row at
the same location. -/
def exRows1 : List RawRow :=
  [⟨"reseñas_A", "POS", some "-1"⟩, ⟨"reseñas_A", "POS", some "0"⟩]

/-- The single aggregate row produced from exRows1. -/
def exAgg1 : Agg := ⟨"A", 1, 1, 0, 0⟩

/-- C1 counterexample: on exRows1 the location A aggregates only 1 mention,
not the 2 the claim predicts, because the sentinel-topic row is dropped
from the table before the sentiment aggregation. -/
theorem c1_counterexample :
    (agg (normalizeRows true exRows1)).map (fun a => (a.lugar, a.mentions)) = [("A", 1)] ∧
      exRows1.length = 2 := by
  constructor
  · decide
  · rfl

/-- C1 amended: a sentinel-topic row is excluded from topic aggregation and
also from sentiment aggregation: the normalized table is unchanged when the
sentinel rows are removed beforehand, and every location aggregate counts
exactly the non-sentinel rows of its location. -/
theorem c1_sentinel_dropped (rows : List RawRow) :
    normalizeRows true rows = normalizeRows true (rows.filter nonSentinelRaw) ∧
      ∀ a ∈ agg (normalizeRows true rows),
        a.mentions =
          rows.countP (fun r => decide (cleanLugar r.lugar = a.lugar) && nonSentinelRaw r) := by
  constructor
  · have h2 : (rows.filter nonSentinelRaw).map rawToRow = (rows.map rawToRow).filter rowKeep :=
      filter_map_comm rawToRow rowKeep rows
    show (rows.map rawToRow).filter rowKeep =
      ((rows.filter nonSentinelRaw).map rawToRow).filter rowKeep
    rw [h2, List.filter_filter]
    exact List.filter_congr (fun a _ => (Bool.and_self (rowKeep a)).symm)
  · intro a ha
    obtain ⟨l, hl, rfl⟩ := List.mem_map.mp ha
    show ((normalizeRows true rows).filter
        (fun r => decide (r.lugar = (aggFor (normalizeRows true rows) l).lugar))).length = _
    rw [← List.countP_eq_length_filter]
    have hnorm : normalizeRows true rows = (rows.map rawToRow).filter rowKeep := rfl
    rw [hnorm, List.countP_filter, List.countP_map]
    rfl

/-- Witness for c1_sentinel_dropped at the concrete table exRows1. -/
theorem c1_sentinel_dropped_witness :
    (normalizeRows true exRows1 = normalizeRows true (exRows1.filter nonSentinelRaw)) ∧
      exAgg1.mentions =
        exRows1.countP (fun r => decide (cleanLugar r.lugar = exAgg1.lugar) && nonSentinelRaw r) :=
  ⟨(c1_sentinel_dropped exRows1).1, (c1_sentinel_dropped exRows1).2 exAgg1 (by decide)⟩

/-- C9 amended: every treemap row takes its description from the static
mapping, with the neg_ fallback and an empty default, and carries the label
exactly when its identifier is in the mapping; an unmapped identifier yields
no label at all. -/
theorem c9_label_description (rows : List Row) :
    ∀ t ∈ treemapResult rows,
      (∀ d, topic_descriptions.lookup t.topic_id = some d →
        t.description = d ∧ t.label = some ("Tópico " ++ t.topic_id)) ∧
      (topic_descriptions.lookup t.topic_id = none →
        t.label = none ∧
          (topic_descriptions.lookup ("neg_" ++ t.topic_id) = none → t.description = "")) := by
  intro t ht
  rw [treemapResult] at ht
  by_cases hany : rows.any (fun r => r.topic.isSome) = true
  · rw [if_pos hany] at ht
    obtain ⟨p, hp, rfl⟩ := List.mem_map.mp ht
    constructor
    · intro d hd
      simp only [map_topic_row] at hd ⊢
      rw [hd]
      have hne : d ≠ "" := topic_descriptions_ne_empty hd
      refine ⟨rfl, ?_⟩
      rw [short_label, hd]
      simp only [Option.getD_some]
      rw [if_neg hne]
    · intro hnone
      simp only [map_topic_row] at hnone ⊢
      rw [hnone]
      refine ⟨?_, ?_⟩
      · rw [short_label, hnone]
        simp
      · intro hneg
        rw [hneg]
        rfl
  · rw [if_neg hany] at ht
    exact absurd ht (List.not_mem_nil t)

/-- Forty rows at one location carrying a topic identifier absent from the
static mapping. -/
def exRows9 : List Row := List.replicate 40 ⟨"A", "POS", some "99"⟩

/-- C9 counterexample: topic 99 is retained (40 mentions meet the
threshold) yet its treemap row carries no label at all (None), with the
empty-string description fallback. -/
theorem c9_counterexample :
    (treemapResult exRows9).map (fun t => (t.topic_id, t.label, t.description, t.mentions)) =
      [("99", (none : Option String), "", 40)] := by
  decide

/-- Forty rows at one location carrying topic 3, which is in the mapping. -/
def exRows9b : List Row := List.replicate 40 ⟨"A", "POS", some "3"⟩

/-- The treemap row produced from exRows9b. -/
def exTopic9 : TopicRow :=
  ⟨"3", some "Tópico 3",
    "Palacio de Bellas Artes: acústica, conciertos y Ballet Folklórico.", 40⟩

/-- Witness for c9_label_description at the concrete table exRows9b. -/
theorem c9_label_description_witness :
    exTopic9 ∈ treemapResult exRows9b ∧
      ((∀ d, topic_descriptions.lookup exTopic9.topic_id = some d →
        exTopic9.description = d ∧ exTopic9.label = some ("Tópico " ++ exTopic9.topic_id)) ∧
      (topic_descriptions.lookup exTopic9.topic_id = none →
        exTopic9.label = none ∧
          (topic_descriptions.lookup ("neg_" ++ exTopic9.topic_id) = none →
            exTopic9.description = ""))) :=
  ⟨by decide, c9_label_description exRows9b exTopic9 (by decide)⟩

/-- Modelled from the spec: the score exactly as claim C6 words it, average
string length of the first 200 non-missing values times the fraction of
rows populated (count of non-missing values over the row count); written
for comparison against colScore, which is the formula of the source. -/
def specColScore (nRows : Nat) (c : Col) : ℚ :=
  ratMul (avgLen (colSample c)) (mkRat ((c.values.filterMap id).length : Int) nRows)

/-- A one-column, one-row table whose only text value is the empty string. -/
def exDF6a : DFrame := ⟨1, [⟨"foo", true, [some ""]⟩]⟩

/-- The fully populated length-10 column of the 400-row table. -/
def colA6 : Col := ⟨"colA", true, List.replicate 400 (some "aaaaaaaaaa")⟩

/-- The half populated length-11 column of the 400-row table. -/
def colB6 : Col :=
  ⟨"colB", true, List.replicate 200 (some "aaaaaaaaaaa") ++ List.replicate 200 none⟩

/-- A 400-row table on which the sample cap changes the heuristic ranking. -/
def exDF6b : DFrame := ⟨400, [colA6, colB6]⟩

set_option maxRecDepth 80000 in
/-- C6 counterexample: on exDF6a a text-like column exists, so the claim
demands it be returned as the score maximizer, but the resolver returns
nothing because its score is not strictly positive; and on exDF6b the claim
ranks colA first (its as-worded score 10 beats 11/2) while the resolver,
whose sampled fraction is capped at 200 rows, returns colB. -/
theorem c6_counterexample :
    (detect_review_column exDF6a = none ∧
      exDF6a.cols.map (fun c => c.name) = ["foo"] ∧
      (∀ c ∈ exDF6a.cols, c.textLike = true)) ∧
    (detect_review_column exDF6b = some "colB" ∧
      specColScore 400 colA6 = 10 ∧ specColScore 400 colB6 = mkRat 11 2) := by
  refine ⟨⟨by decide, by decide, by decide⟩, ⟨by decide, by decide, by decide⟩⟩

/-- C6 amended: the resolver returns the first case-insensitive canonical
match; with no match it returns, among the text-like columns, the earliest
column of strictly maximal score provided that score is positive, where the
score is the average sampled string length times min(200, populated count)
over max(1, row count); it returns nothing when the table is empty, no
column is text-like, or every text-like column scores zero. -/
theorem c6_resolver (df : DFrame) :
    (∀ c rest, df.cols.filter (fun x => reviewCandidates.contains (lowerS x.name)) = c :: rest →
      detect_review_column df = some c.name) ∧
    (df.cols.filter (fun x => reviewCandidates.contains (lowerS x.name)) = [] →
      ((detect_review_column df = none ∧
          ∀ c ∈ df.cols.filter (fun x => x.textLike), colScore df.nRows c ≤ 0) ∨
        (∃ c ∈ df.cols.filter (fun x => x.textLike), detect_review_column df = some c.name ∧
          0 < colScore df.nRows c ∧
          ∀ c2 ∈ df.cols.filter (fun x => x.textLike),
            colScore df.nRows c2 ≤ colScore df.nRows c))) := by
  constructor
  · intro c rest heq
    simp only [detect_review_column]
    rw [heq]
  · intro heq
    have hdet : detect_review_column df =
        ((df.cols.filter (fun x => x.textLike)).foldl (bestStep df.nRows)
          ((none : Option String), (0 : ℚ))).1 := by
      simp only [detect_review_column]
      rw [heq]
    rcases foldl_bestStep_spec df.nRows (df.cols.filter (fun x => x.textLike))
        ((none : Option String), (0 : ℚ)) with ⟨hfix, hall⟩ | ⟨c, hc, hn, hs, hlt, hall⟩
    · left
      refine ⟨?_, hall⟩
      rw [hdet, hfix]
    · right
      refine ⟨c, hc, ?_, hlt, hall⟩
      rw [hdet, hn]

/-- A one-column table with a canonical review column name. -/
def exDF6c : DFrame := ⟨1, [⟨"Review", true, [some "hola"]⟩]⟩

/-- Witness for c6_resolver: the canonical branch at a concrete table. -/
theorem c6_resolver_witness : detect_review_column exDF6c = some "Review" :=
  (c6_resolver exDF6c).1 ⟨"Review", true, [some "hola"]⟩ [] (by decide)

/-- A table with the two mandatory columns and no review-text column at
all, in particular no column named Review_Lematizada. -/
def exDF2 : DFrame := ⟨1, [⟨"Lugar", true, [some "reseñas_A"]⟩, ⟨"SentLabel", true, [some "POS"]⟩]⟩

/-- C2: on a table without the hard-coded Review_Lematizada column the
word-cloud source step of app.py line 201 fails with a KeyError instead of
degrading to a placeholder: the detected review_text fallback computed on
lines 140-145 is bypassed by the literal column access. -/
theorem c2_keyerror :
    exDF2.cols.map (fun c => c.name) = ["Lugar", "SentLabel"] ∧
      wordcloud_src exDF2 [] = Except.error "KeyError: Review_Lematizada" :=
  ⟨by decide, rfl⟩

/-- Witness for c8_validation at a concrete column list. -/
theorem c8_validation_witness :
    ((∃ e, validateColumns ["Lugar", "SentLabel"] = Except.error e) ↔
      ¬("lugar" ∈ renameColumns ["Lugar", "SentLabel"] ∧
        "sent_label" ∈ renameColumns ["Lugar", "SentLabel"])) ∧
      ("lugar" ∈ renameColumns ["Lugar", "SentLabel"] ↔
        ("Lugar" ∈ (["Lugar", "SentLabel"] : List String) ∨
          "lugar" ∈ (["Lugar", "SentLabel"] : List String))) ∧
      ("sent_label" ∈ renameColumns ["Lugar", "SentLabel"] ↔
        ("SentLabel" ∈ (["Lugar", "SentLabel"] : List String) ∨
          "sent_label" ∈ (["Lugar", "SentLabel"] : List String))) :=
  c8_validation ["Lugar", "SentLabel"]
